import Mathlib

/-!
Verification development for the simulation core of an arcade-maze chase
game (player motion, ghost motion + AI, collectibles, tunnel wrap).

The definitions below are shallow embeddings of the TypeScript source:
JavaScript numbers are modelled as rationals (every operation used by the
code — +, -, *, /, Math.floor, Math.ceil, Math.round, Math.min, Math.max,
Math.abs, comparisons — is exact on the inputs the code manipulates), and
the single call to Math.random() is made explicit as a rational parameter
in the half-open interval [0, 1).
-/

namespace PacSim

/-- Math.floor on a rational, as used for pixel→tile conversion. -/
def jsFloor (q : ℚ) : ℤ := ⌊q⌋

/-- Math.ceil on a rational. -/
def jsCeil (q : ℚ) : ℤ := ⌈q⌉

/-- Math.round on a rational: JavaScript rounds half toward +∞. -/
def jsRound (q : ℚ) : ℤ := ⌊q + 1/2⌋

/-- maze/tiles.ts: `TILE = 20` — grid cell size in pixels. -/
def TILE : ℚ := 20

/-- entities/player.ts: `SPEED = 120` — player speed in pixels/second. -/
def SPEED : ℚ := 120

/-- entities/player.ts: `PACMAN_RADIUS = 10` pixels. -/
def PACMAN_RADIUS : ℚ := 10

/-- entities/player.ts: `R = PACMAN_RADIUS`. -/
def R : ℚ := PACMAN_RADIUS

/-- entities/player.ts: `D = Math.round(R / Math.SQRT2)`; 10/√2 ≈ 7.071 so D = 7. -/
def D : ℚ := 7

/-- entities/player.ts: `HALF_TILE = TILE / 2`. -/
def HALF_TILE : ℚ := TILE / 2

/-- entities/ghost.ts: `GHOST_SPEED = 115` pixels/second. -/
def GHOST_SPEED : ℚ := 115

/-- input.ts: the four directional intents. -/
inductive Direction where
| up
| down
| left
| right
deriving DecidableEq, Repr

/-- maze/tiles.ts: tile kinds. -/
inductive TileType where
| wall
| floor
| dot
| pellet
| door
deriving DecidableEq, Repr

/-- entities/ghost.ts: the six ghost modes. -/
inductive GhostMode where
| pen
| exiting
| scatter
| chase
| frightened
| eaten
deriving DecidableEq, Repr

/-- entities/ghost.ts: ghost personalities. -/
inductive GhostPersonality where
| blinky
| pinky
| clyde
deriving DecidableEq, Repr

/-- maze/maze.ts: `MazeState` — the parsed tile grid plus metadata. -/
structure MazeState where
  tiles : List (List TileType)
  cols : ℤ
  rows : ℤ
  tunnelRow : ℤ
deriving DecidableEq, Repr

/-- maze/maze.ts `getTile`: out-of-bounds indices (negative, too large, or a
row shorter than the index) read as `wall`, exactly as the JS
`maze.tiles[row]`/`tileRow[col]` lookups yield `undefined` and the
`?? "wall"` fallbacks apply. -/
def getTile (maze : MazeState) (col row : ℤ) : TileType :=
  if row < 0 then .wall
  else
    match maze.tiles.get? row.toNat with
    | none => .wall
    | some tileRow =>
      if col < 0 then .wall
      else (tileRow.get? col.toNat).getD .wall

/-- entities/ghost.ts `oppositeDir`. -/
def oppositeDir (dir : Direction) : Direction :=
  match dir with
  | .left => .right
  | .right => .left
  | .up => .down
  | .down => .up

/-- entities/ghost.ts `snapToCenter`: snaps `pos` to the nearest tile centre
`k*TILE + TILE/2`. -/
def snapToCenter (pos : ℚ) : ℚ :=
  (jsRound ((pos - TILE / 2) / TILE) : ℚ) * TILE + TILE / 2

/-- entities/ghost.ts `findCrossedCenter`: the first tile centre crossed when
moving from `f` to `t`, or `none` if no centre was crossed. -/
def findCrossedCenter (f t : ℚ) : Option ℚ :=
  if f = t then none
  else
    let mn := min f t
    let mx := max f t
    let kLow := jsCeil ((mn - TILE / 2) / TILE)
    let kHigh := jsFloor ((mx - TILE / 2) / TILE)
    if kLow > kHigh then none
    else some (((if t > f then kLow else kHigh) : ℚ) * TILE + TILE / 2)

/-- entities/ghost.ts `ghostIsWallAt`: whether the pixel position lands the
ghost inside a blocking tile; the door blocks except in pen/exiting/eaten. -/
def ghostIsWallAt (maze : MazeState) (x y : ℚ) (mode : GhostMode) : Bool :=
  let col := jsFloor (x / TILE)
  let row := jsFloor (y / TILE)
  let tile := getTile maze col row
  if tile = .wall then true
  else if tile = .door then
    !(mode == .pen) && !(mode == .exiting) && !(mode == .eaten)
  else false

/-- entities/ghost.ts `PEN_EXIT_X` (270). -/
def PEN_EXIT_X : ℚ := 13 * TILE + TILE / 2

/-- entities/ghost.ts `PEN_EXIT_Y` (230). -/
def PEN_EXIT_Y : ℚ := 11 * TILE + TILE / 2

/-- entities/ghost.ts `PEN_ENTRANCE_X` (270). -/
def PEN_ENTRANCE_X : ℚ := 13 * TILE + TILE / 2

/-- entities/ghost.ts `PEN_ENTRANCE_Y` (250). -/
def PEN_ENTRANCE_Y : ℚ := 12 * TILE + TILE / 2

/-- entities/ghost.ts `SCATTER_TARGETS`: per-personality fixed corner. -/
def SCATTER_TARGETS (p : GhostPersonality) : ℚ × ℚ :=
  match p with
  | .blinky => (25 * TILE + TILE / 2, 1 * TILE + TILE / 2)
  | .pinky => (2 * TILE + TILE / 2, 1 * TILE + TILE / 2)
  | .clyde => (1 * TILE + TILE / 2, 29 * TILE + TILE / 2)

/-- entities/ghost.ts `GhostState`. -/
structure GhostState where
  x : ℚ
  y : ℚ
  dir : Direction
  mode : GhostMode
  frightenedTimer : ℚ
  penTimer : ℚ
  personality : GhostPersonality
deriving DecidableEq, Repr

/-- entities/ghost.ts `createGhost`. -/
def createGhost (startX startY : ℚ) (personality : GhostPersonality)
    (penWait : ℚ) : GhostState :=
  { x := startX, y := startY, dir := .up, mode := .pen,
    frightenedTimer := 0, penTimer := penWait, personality := personality }

/-- entities/ghost.ts `chaseTarget`: per-personality chase-mode target point.
`ghost.x`/`ghost.y` are read from the state passed in (in `updateGhost` this
is the pre-movement state, as in the source). -/
def chaseTarget (ghost : GhostState) (playerX playerY : ℚ)
    (playerFacing : Direction) : ℚ × ℚ :=
  match ghost.personality with
  | .blinky => (playerX, playerY)
  | .pinky =>
    let ahead := 4 * TILE
    match playerFacing with
    | .right => (playerX + ahead, playerY)
    | .left => (playerX - ahead, playerY)
    | .down => (playerX, playerY + ahead)
    | .up => (playerX, playerY - ahead)
  | .clyde =>
    let dx := ghost.x - playerX
    let dy := ghost.y - playerY
    let distSq := dx * dx + dy * dy
    let threshold := 8 * TILE
    if distSq > threshold * threshold then (playerX, playerY)
    else SCATTER_TARGETS .clyde

/-- entities/ghost.ts: the x-offset of the one-tile-ahead probe,
`d === "right" ? TILE : d === "left" ? -TILE : 0` (inlined repeatedly in
`pickDirection`). -/
def dirDx (d : Direction) : ℚ :=
  if d = .right then TILE else if d = .left then -TILE else 0

/-- entities/ghost.ts: the y-offset of the one-tile-ahead probe,
`d === "down" ? TILE : d === "up" ? -TILE : 0`. -/
def dirDy (d : Direction) : ℚ :=
  if d = .down then TILE else if d = .up then -TILE else 0

/-- entities/ghost.ts `pickDirection`: greedy direction choice at a tile
centre.  `rand` stands for the single `Math.random()` call of the frightened
branch (a value in [0,1)); every other branch ignores it.  The JS
`candidates[Math.floor(Math.random()*candidates.length)]` indexing is
in-bounds for rand ∈ [0,1) since `candidates` is non-empty on that path; the
`getD` default is never reached for such rand. -/
def pickDirection (x y : ℚ) (currentDir : Direction) (targetX targetY : ℚ)
    (mode : GhostMode) (maze : MazeState) (rand : ℚ) : Direction :=
  let reverse := oppositeDir currentDir
  let all : List Direction := [.up, .down, .left, .right]
  let valid := all.filter fun d =>
    !(d == reverse) && !(ghostIsWallAt maze (x + dirDx d) (y + dirDy d) mode)
  match valid with
  | [] => reverse
  | v :: vs =>
    if mode = .frightened then
      let toward := vs.foldl
        (fun worst d =>
          if (x + dirDx d - targetX) ^ 2 + (y + dirDy d - targetY) ^ 2 <
              (x + dirDx worst - targetX) ^ 2 + (y + dirDy worst - targetY) ^ 2
          then d else worst) v
      let pool := (v :: vs).filter fun d => !(d == toward)
      let candidates := if pool.length > 0 then pool else v :: vs
      candidates.getD (jsFloor (rand * candidates.length)).toNat currentDir
    else
      vs.foldl
        (fun best d =>
          if (x + dirDx d - targetX) ^ 2 + (y + dirDy d - targetY) ^ 2 <
              (x + dirDx best - targetX) ^ 2 + (y + dirDy best - targetY) ^ 2
          then d else best) v

/-- The target point `updateGhost` computes in its `switch (mode)` before
moving.  The source's switch has no `pen` arm (that mode returned earlier);
the `pen` case here is the arbitrary value of that unreachable arm. -/
def ghostTarget (ghost : GhostState) (mode : GhostMode) (playerX playerY : ℚ)
    (playerFacing : Direction) : ℚ × ℚ :=
  match mode with
  | .exiting => (PEN_EXIT_X, PEN_EXIT_Y)
  | .scatter => SCATTER_TARGETS ghost.personality
  | .chase => chaseTarget ghost playerX playerY playerFacing
  | .frightened => (playerX, playerY)
  | .eaten => (PEN_ENTRANCE_X, PEN_ENTRANCE_Y)
  | .pen => (0, 0)

/-- entities/ghost.ts `updateGhost` — one simulation step of a ghost.
Sequential mutation of the source is flattened into successive bindings;
`rand` is the frightened-branch `Math.random()` draw. -/
def updateGhost (ghost : GhostState) (playerX playerY : ℚ)
    (playerFacing : Direction) (dt : ℚ) (maze : MazeState)
    (isChasing : Bool) (rand : ℚ) : GhostState :=
  -- frightened timer
  let frightenedTimer :=
    if ghost.frightenedTimer > 0 then max 0 (ghost.frightenedTimer - dt)
    else ghost.frightenedTimer
  let mode :=
    if ghost.frightenedTimer > 0 ∧ max 0 (ghost.frightenedTimer - dt) = 0 ∧
        ghost.mode = .frightened then
      if isChasing then .chase else .scatter
    else ghost.mode
  -- pen waiting
  if mode = .pen then
    let penTimer := max 0 (ghost.penTimer - dt)
    let mode := if penTimer = 0 then GhostMode.exiting else mode
    { ghost with mode := mode, penTimer := penTimer,
                 frightenedTimer := frightenedTimer }
  else
    -- target selection
    let target := ghostTarget ghost mode playerX playerY playerFacing
    let targetX := target.1
    let targetY := target.2
    -- movement with crossing-based direction updates
    let dist := GHOST_SPEED * dt
    let dir := ghost.dir
    let movingH := dir = .left ∨ dir = .right
    let prevX := ghost.x
    let prevY := ghost.y
    let x := if dir = .right then prevX + dist
             else if dir = .left then prevX - dist else prevX
    let y := if dir = .down then prevY + dist
             else if dir = .up then prevY - dist else prevY
    let axisFrom := if movingH then prevX else prevY
    let axisTo := if movingH then x else y
    match findCrossedCenter axisFrom axisTo with
    | none =>
      { ghost with x := x, y := y, dir := dir, mode := mode,
                   frightenedTimer := frightenedTimer,
                   penTimer := ghost.penTimer }
    | some crossed =>
      let distToCenter := |crossed - axisFrom|
      let remaining := dist - distToCenter
      let x := if movingH then crossed else snapToCenter prevX
      let y := if movingH then snapToCenter prevY else crossed
      let exitArrived := mode = .exiting ∧
        |x - PEN_EXIT_X| < 1 ∧ |y - PEN_EXIT_Y| < 1
      let x := if exitArrived then PEN_EXIT_X else x
      let y := if exitArrived then PEN_EXIT_Y else y
      let mode := if exitArrived then
          (if isChasing then GhostMode.chase else .scatter)
        else mode
      let entranceArrived := mode = .eaten ∧
        |x - PEN_ENTRANCE_X| < 1 ∧ |y - PEN_ENTRANCE_Y| < 1
      let x := if entranceArrived then PEN_ENTRANCE_X else x
      let y := if entranceArrived then PEN_ENTRANCE_Y else y
      let mode := if entranceArrived then GhostMode.pen else mode
      let penTimer := if entranceArrived then (1 : ℚ) else ghost.penTimer
      let dir := pickDirection x y dir targetX targetY mode maze rand
      let x := if remaining > 0 then
          (if dir = .right then x + remaining
           else if dir = .left then x - remaining else x)
        else x
      let y := if remaining > 0 then
          (if dir = .down then y + remaining
           else if dir = .up then y - remaining else y)
        else y
      { ghost with x := x, y := y, dir := dir, mode := mode,
                   frightenedTimer := frightenedTimer, penTimer := penTimer }

/-- Modelled from the spec: the variant of `updateGhost` the specification
describes, in which, after a mode-completing waypoint arrival at a tile
centre, the chase/scatter/frightened/eaten target is recomputed for the
(possibly new) mode before the new direction is chosen.  It differs from
`updateGhost` only in the pair passed to `pickDirection` after a crossing. -/
def updateGhostSpec (ghost : GhostState) (playerX playerY : ℚ)
    (playerFacing : Direction) (dt : ℚ) (maze : MazeState)
    (isChasing : Bool) (rand : ℚ) : GhostState :=
  let frightenedTimer :=
    if ghost.frightenedTimer > 0 then max 0 (ghost.frightenedTimer - dt)
    else ghost.frightenedTimer
  let mode :=
    if ghost.frightenedTimer > 0 ∧ max 0 (ghost.frightenedTimer - dt) = 0 ∧
        ghost.mode = .frightened then
      if isChasing then .chase else .scatter
    else ghost.mode
  if mode = .pen then
    let penTimer := max 0 (ghost.penTimer - dt)
    let mode := if penTimer = 0 then GhostMode.exiting else mode
    { ghost with mode := mode, penTimer := penTimer,
                 frightenedTimer := frightenedTimer }
  else
    let dist := GHOST_SPEED * dt
    let dir := ghost.dir
    let movingH := dir = .left ∨ dir = .right
    let prevX := ghost.x
    let prevY := ghost.y
    let x := if dir = .right then prevX + dist
             else if dir = .left then prevX - dist else prevX
    let y := if dir = .down then prevY + dist
             else if dir = .up then prevY - dist else prevY
    let axisFrom := if movingH then prevX else prevY
    let axisTo := if movingH then x else y
    match findCrossedCenter axisFrom axisTo with
    | none =>
      { ghost with x := x, y := y, dir := dir, mode := mode,
                   frightenedTimer := frightenedTimer,
                   penTimer := ghost.penTimer }
    | some crossed =>
      let distToCenter := |crossed - axisFrom|
      let remaining := dist - distToCenter
      let x := if movingH then crossed else snapToCenter prevX
      let y := if movingH then snapToCenter prevY else crossed
      let exitArrived := mode = .exiting ∧
        |x - PEN_EXIT_X| < 1 ∧ |y - PEN_EXIT_Y| < 1
      let x := if exitArrived then PEN_EXIT_X else x
      let y := if exitArrived then PEN_EXIT_Y else y
      let mode := if exitArrived then
          (if isChasing then GhostMode.chase else .scatter)
        else mode
      let entranceArrived := mode = .eaten ∧
        |x - PEN_ENTRANCE_X| < 1 ∧ |y - PEN_ENTRANCE_Y| < 1
      let x := if entranceArrived then PEN_ENTRANCE_X else x
      let y := if entranceArrived then PEN_ENTRANCE_Y else y
      let mode := if entranceArrived then GhostMode.pen else mode
      let penTimer := if entranceArrived then (1 : ℚ) else ghost.penTimer
      -- the spec's difference: the target is recomputed for the new mode
      let target := ghostTarget ghost mode playerX playerY playerFacing
      let dir := pickDirection x y dir target.1 target.2 mode maze rand
      let x := if remaining > 0 then
          (if dir = .right then x + remaining
           else if dir = .left then x - remaining else x)
        else x
      let y := if remaining > 0 then
          (if dir = .down then y + remaining
           else if dir = .up then y - remaining else y)
        else y
      { ghost with x := x, y := y, dir := dir, mode := mode,
                   frightenedTimer := frightenedTimer, penTimer := penTimer }

/-- entities/player.ts `nearestTileCenter`: pixel centre of the tile nearest
to `pos` (centres sit at `col*TILE + TILE/2`). -/
def nearestTileCenter (pos : ℚ) : ℚ :=
  (jsRound ((pos - HALF_TILE) / TILE) : ℚ) * TILE + HALF_TILE

/-- entities/player.ts `TurnResult`. -/
structure TurnResult where
  allowed : Bool
  snapX : ℚ
  snapY : ℚ
deriving DecidableEq, Repr

/-- entities/player.ts `canMoveInDir`: true when a step of `dist` pixels in
`dir` from `(x, y)` keeps all three leading-arc probes out of walls.  The
probes are evaluated at the destination coordinate. -/
def canMoveInDir (x y : ℚ) (dir : Direction) (dist : ℚ)
    (isWallAt : ℚ → ℚ → Bool) : Bool :=
  match dir with
  | .right =>
    let nx := x + dist
    !(isWallAt (nx + R) y) && !(isWallAt (nx + D) (y - D)) &&
      !(isWallAt (nx + D) (y + D))
  | .left =>
    let nx := x - dist
    !(isWallAt (nx - R) y) && !(isWallAt (nx - D) (y - D)) &&
      !(isWallAt (nx - D) (y + D))
  | .down =>
    let ny := y + dist
    !(isWallAt x (ny + R)) && !(isWallAt (x - D) (ny + D)) &&
      !(isWallAt (x + D) (ny + D))
  | .up =>
    let ny := y - dist
    !(isWallAt x (ny - R)) && !(isWallAt (x - D) (ny - D)) &&
      !(isWallAt (x + D) (ny - D))

/-- entities/player.ts: whether a direction is horizontal
(`d === "left" || d === "right"`, as computed inside `tryTurn`). -/
def isHorizontal (d : Direction) : Bool :=
  d == .left || d == .right

/-- entities/player.ts `tryTurn`: validates a queued turn; a perpendicular
turn snaps the off-axis coordinate to the nearest tile centre before the
three-probe wall check (with probe distance 1). -/
def tryTurn (x y : ℚ) (currentDir : Option Direction) (desiredDir : Direction)
    (isWallAt : ℚ → ℚ → Bool) : TurnResult :=
  let snap : ℚ × ℚ :=
    match currentDir with
    | none => (x, y)
    | some cd =>
      if isHorizontal cd ≠ isHorizontal desiredDir then
        (if isHorizontal cd then (nearestTileCenter x, y)
         else (x, nearestTileCenter y))
      else (x, y)
  { allowed := canMoveInDir snap.1 snap.2 desiredDir 1 isWallAt,
    snapX := snap.1, snapY := snap.2 }

/-- entities/player.ts `PlayerState`. -/
structure PlayerState where
  x : ℚ
  y : ℚ
  facing : Direction
  currentDir : Option Direction
  desiredDir : Option Direction
  mouthTimer : ℚ
  isMoving : Bool
deriving DecidableEq, Repr

/-- entities/player.ts `createPlayer`. -/
def createPlayer (startX startY : ℚ) : PlayerState :=
  { x := startX, y := startY, facing := .right, currentDir := none,
    desiredDir := none, mouthTimer := 0, isMoving := false }

/-- entities/player.ts: the bounds argument of `updatePlayer`; `xMin`/`xMax`
are the optional per-axis clamp overrides used by the tunnel row. -/
structure Bounds where
  width : ℚ
  height : ℚ
  xMin : Option ℚ := none
  xMax : Option ℚ := none
deriving DecidableEq, Repr

/-- entities/player.ts `updatePlayer` — one simulation step of the player.
Sequential mutation of the source is flattened into successive bindings. -/
def updatePlayer (player : PlayerState) (dir : Option Direction) (dt : ℚ)
    (bounds : Bounds) (isWallAt : ℚ → ℚ → Bool) : PlayerState :=
  -- new input overrides the queued direction; releasing a key preserves it
  let desiredDir := match dir with
    | some d => some d
    | none => player.desiredDir
  let dist := SPEED * dt
  -- try to apply the queued turn
  let afterTurn : Option Direction × Option Direction × ℚ × ℚ :=
    match desiredDir with
    | none => (player.currentDir, desiredDir, player.x, player.y)
    | some dd =>
      let turn := tryTurn player.x player.y player.currentDir dd isWallAt
      if turn.allowed then (some dd, none, turn.snapX, turn.snapY)
      else (player.currentDir, desiredDir, player.x, player.y)
  let currentDir := afterTurn.1
  let remainingDesired := afterTurn.2.1
  let x0 := afterTurn.2.2.1
  let y0 := afterTurn.2.2.2
  -- move in the current direction if the path is clear
  let moved : ℚ × ℚ :=
    match currentDir with
    | some cd =>
      if canMoveInDir x0 y0 cd dist isWallAt then
        (if cd = .right then (x0 + dist, y0)
         else if cd = .left then (x0 - dist, y0)
         else if cd = .down then (x0, y0 + dist)
         else (x0, y0 - dist))
      else (x0, y0)
    | none => (x0, y0)
  -- clamp to canvas bounds (tunnel wrapping is handled in game.ts)
  let xMin := bounds.xMin.getD R
  let xMax := bounds.xMax.getD (bounds.width - R)
  let x := max xMin (min xMax moved.1)
  let y := max R (min (bounds.height - R) moved.2)
  let isMoving : Bool := !(x == player.x) || !(y == player.y)
  let facing := currentDir.getD player.facing
  let mouthTimer := if isMoving then player.mouthTimer + dt
    else player.mouthTimer
  { x := x, y := y, facing := facing, currentDir := currentDir,
    desiredDir := remainingDesired, mouthTimer := mouthTimer,
    isMoving := isMoving }

/-- maze/dots.ts `Dot` (the `isPellet` flag of maze.ts's dot builder is not
consumed by `eatDots` and the claims; the positional fields suffice). -/
structure Dot where
  x : ℚ
  y : ℚ
deriving DecidableEq, Repr

/-- maze/dots.ts `eatDots`: a new array keeping exactly the dots strictly
farther than `eatRadius` from the player; the input list is untouched. -/
def eatDots (dots : List Dot) (playerX playerY eatRadius : ℚ) : List Dot :=
  dots.filter fun dot =>
    decide ((dot.x - playerX) * (dot.x - playerX) +
      (dot.y - playerY) * (dot.y - playerY) > eatRadius * eatRadius)

/-- game.ts `wrapTunnels`: teleports the player across the screen edge on the
tunnel row; any other row is returned unchanged. -/
def wrapTunnels (player : PlayerState) (tunnelRow : ℤ) (canvasWidth : ℚ) :
    PlayerState :=
  let row := jsFloor (player.y / TILE)
  if row ≠ tunnelRow then player
  else if player.x < 0 then { player with x := canvasWidth - PACMAN_RADIUS }
  else if player.x ≥ canvasWidth then { player with x := PACMAN_RADIUS }
  else player

/-- The default wall predicate of `updatePlayer` (`() => false`): no walls. -/
def noWalls : ℚ → ℚ → Bool := fun _ _ => false

/-- A maze value with an empty tile grid (every lookup reads `wall`);
metadata mirrors the 28×31 reference maze. -/
def mazeTriv : MazeState :=
  { tiles := [], cols := 28, rows := 31, tunnelRow := 14 }

/-- game.ts top-level bounds: 560×620 maze canvas, default clamps. -/
def boundsGame : Bounds := { width := 560, height := 620 }

/-- A player on the tunnel row (row 14) just past the left edge. -/
def playerTunnel : PlayerState :=
  { x := -2, y := 290, facing := .left, currentDir := some .left,
    desiredDir := none, mouthTimer := 0, isMoving := true }

/-- Dots fixture: one dot at the player position, one 90 px away. -/
def dotsFix : List Dot := [{ x := 10, y := 10 }, { x := 100, y := 10 }]

/-- A small concrete maze around the pen exit (tile (13, 11)): the tile
above the exit is a wall, the tiles left and right of it are floor, and the
door sits below at (13, 12); all unlisted tiles read as wall. -/
def mazeC2 : MazeState :=
  { tiles := [[], [], [], [], [], [], [], [], [], [],
      List.replicate 14 .wall,
      List.replicate 12 .wall ++ [.floor, .floor, .floor],
      List.replicate 13 .wall ++ [.door]],
    cols := 28, rows := 13, tunnelRow := 14 }

/-- A blinky ghost in exiting mode, 5 px below the pen exit, moving up. -/
def gC2 : GhostState :=
  { x := 270, y := 235, dir := .up, mode := .exiting, frightenedTimer := 0,
    penTimer := 0, personality := .blinky }

/-- A ghost waiting in the pen with a positive frightened timer left over. -/
def gPen : GhostState :=
  { x := 270, y := 250, dir := .up, mode := .pen, frightenedTimer := 5,
    penTimer := 3, personality := .blinky }

/-- A frightened ghost whose timer is about to expire. -/
def gFright : GhostState :=
  { x := 270, y := 230, dir := .left, mode := .frightened,
    frightenedTimer := 1, penTimer := 0, personality := .blinky }

/-- A player standing still (no current or queued direction) whose
`isMoving` flag is still set from a previous frame. -/
def playerStopped : PlayerState :=
  { x := 290, y := 230, facing := .right, currentDir := none,
    desiredDir := none, mouthTimer := 0, isMoving := true }

/-- A player moving right at x = 292, two pixels past the tile centre at
x = 290, on the tile-centre row y = 230. -/
def playerC8 : PlayerState :=
  { x := 292, y := 230, facing := .right, currentDir := some .right,
    desiredDir := none, mouthTimer := 0, isMoving := true }

end PacSim

namespace PacSim

/-- Evaluation helper for `jsCeil` at pinned values. -/
theorem jsCeil_eq (q : ℚ) (z : ℤ) (h1 : (z : ℚ) - 1 < q) (h2 : q ≤ (z : ℚ)) :
    jsCeil q = z := by
  rw [jsCeil]
  exact Int.ceil_eq_iff.mpr ⟨h1, h2⟩

/-- Evaluation helper for `jsFloor` at pinned values. -/
theorem jsFloor_eq (q : ℚ) (z : ℤ) (h1 : (z : ℚ) ≤ q) (h2 : q < (z : ℚ) + 1) :
    jsFloor q = z := by
  rw [jsFloor]
  exact Int.floor_eq_iff.mpr ⟨h1, by exact_mod_cast h2⟩

/-- A rational is below the tile centre `k*TILE + TILE/2` exactly when its
shifted-and-scaled value is below `k`. -/
theorem le_center_iff (q : ℚ) (k : ℤ) :
    q ≤ (k : ℚ) * TILE + TILE / 2 ↔ (q - TILE / 2) / TILE ≤ (k : ℚ) := by
  rw [TILE, div_le_iff (by norm_num : (0:ℚ) < 20)]
  constructor <;> intro h <;> linarith

/-- A tile centre `k*TILE + TILE/2` is below a rational exactly when `k` is
below the shifted-and-scaled value. -/
theorem center_le_iff (q : ℚ) (k : ℤ) :
    (k : ℚ) * TILE + TILE / 2 ≤ q ↔ (k : ℚ) ≤ (q - TILE / 2) / TILE := by
  rw [TILE, le_div_iff (by norm_num : (0:ℚ) < 20)]
  constructor <;> intro h <;> linarith

/-- A tile centre lies in `[mn, mx]` exactly when its index lies between the
two integer bounds `findCrossedCenter` computes. -/
theorem center_mem_iff (mn mx : ℚ) (k : ℤ) :
    (mn ≤ (k : ℚ) * TILE + TILE / 2 ∧ (k : ℚ) * TILE + TILE / 2 ≤ mx) ↔
    (jsCeil ((mn - TILE / 2) / TILE) ≤ k ∧
      k ≤ jsFloor ((mx - TILE / 2) / TILE)) := by
  rw [jsCeil, jsFloor, Int.ceil_le, Int.le_floor, le_center_iff,
    center_le_iff]

/-- A two-argument fold whose step keeps either the accumulator or the new
element stays inside the initial element and the list (the JS
`Array.prototype.reduce` pattern used by `pickDirection`). -/
theorem foldl_choose_mem {α : Type} (g : α → α → α)
    (hg : ∀ b d, g b d = b ∨ g b d = d) :
    ∀ (l : List α) (a : α), l.foldl g a ∈ a :: l := by
  intro l
  induction l with
  | nil => intro a; simp
  | cons d l ih =>
    intro a
    have h2 := ih (g a d)
    rw [List.foldl_cons]
    rcases List.mem_cons.mp h2 with h3 | h3
    · rw [h3]
      rcases hg a d with h | h <;> simp [h]
    · simp [h3]

/-- An in-range `getD` access lands in the list. -/
theorem getD_mem {α : Type} : ∀ (l : List α) (n : ℕ) (dflt : α),
    n < l.length → l.getD n dflt ∈ l := by
  intro l
  induction l with
  | nil => intro n dflt h; simp at h
  | cons a l ih =>
    intro n dflt h
    cases n with
    | zero => simp [List.getD]
    | succ n =>
      simp only [List.getD_cons_succ]
      exact List.mem_cons_of_mem a (ih n dflt (by simpa using h))

/-- The JS random pick `M[Math.floor(r * M.length)]` lands in any superset
of the non-empty pool `M` when r ∈ [0, 1). -/
theorem getD_rand_mem (L M : List Direction) (cd : Direction) (r : ℚ)
    (h0 : 0 ≤ r) (h1 : r < 1) (hsub : M ⊆ L) (hne : M ≠ []) :
    M.getD (jsFloor (r * M.length)).toNat cd ∈ L := by
  refine hsub (getD_mem _ _ _ ?_)
  have hlen : 0 < M.length := List.length_pos.mpr hne
  have hfl : 0 ≤ jsFloor (r * M.length) := by
    rw [jsFloor]
    exact Int.floor_nonneg.mpr (by positivity)
  have hfu : jsFloor (r * M.length) < (M.length : ℤ) := by
    rw [jsFloor, Int.floor_lt]
    push_cast
    calc r * M.length < 1 * M.length := by
          exact mul_lt_mul_of_pos_right h1 (by exact_mod_cast hlen)
    _ = M.length := one_mul _
  omega

/-- `pickDirection` either reverses with an empty candidate list, or returns
a member of the candidate list (for any rand in [0, 1)). -/
theorem pickDirection_mem (x y : ℚ) (cd : Direction) (tx ty : ℚ)
    (m : GhostMode) (maze : MazeState) (r : ℚ) (h0 : 0 ≤ r) (h1 : r < 1) :
    (pickDirection x y cd tx ty m maze r = oppositeDir cd ∧
      (List.filter (fun d =>
        !(d == oppositeDir cd) &&
          !(ghostIsWallAt maze (x + dirDx d) (y + dirDy d) m))
        [Direction.up, Direction.down, Direction.left, Direction.right]) = [])
    ∨ pickDirection x y cd tx ty m maze r ∈
      (List.filter (fun d =>
        !(d == oppositeDir cd) &&
          !(ghostIsWallAt maze (x + dirDx d) (y + dirDy d) m))
        [Direction.up, Direction.down, Direction.left, Direction.right]) := by
  cases hL : (List.filter (fun d =>
      !(d == oppositeDir cd) &&
        !(ghostIsWallAt maze (x + dirDx d) (y + dirDy d) m))
      [Direction.up, Direction.down, Direction.left, Direction.right]) with
  | nil =>
    left
    exact ⟨by simp only [pickDirection, hL], rfl⟩
  | cons v vs =>
    right
    simp only [pickDirection, hL]
    by_cases hm : m = .frightened
    · rw [if_pos hm]
      refine getD_rand_mem (v :: vs) _ cd r h0 h1 ?_ ?_
      · split
        · exact fun a ha => (List.mem_filter.mp ha).1
        · exact fun a ha => ha
      · split
        · next h => exact List.ne_nil_of_length_pos h
        · exact List.cons_ne_nil v vs
    · rw [if_neg hm]
      exact foldl_choose_mem _ (fun b d => Or.symm (ite_eq_or_eq _ _ _)) vs v

/-- Every direction is in the enumeration `pickDirection` filters. -/
theorem mem_allDirections (d : Direction) :
    d ∈ ([.up, .down, .left, .right] : List Direction) := by
  cases d <;> simp

/-- `ghostIsWallAt` in terms of a pinned tile lookup. -/
theorem ghostIsWallAt_eq (maze : MazeState) (x y : ℚ) (mode : GhostMode)
    (col row : ℤ) (hcol : jsFloor (x / TILE) = col)
    (hrow : jsFloor (y / TILE) = row) :
    ghostIsWallAt maze x y mode =
      (if getTile maze col row = .wall then true
       else if getTile maze col row = .door then
         !(mode == .pen) && !(mode == .exiting) && !(mode == .eaten)
       else false) := by
  simp only [ghostIsWallAt, hcol, hrow]

/-- C4: `pickDirection` returns the reverse of the current direction only
when every non-reverse direction has a blocking one-tile-ahead tile under
the mode's passability rule; whenever some non-reverse direction is open,
the result is a non-reverse direction whose one-tile-ahead tile is open
(for any value of the frightened-branch random draw in [0, 1)). -/
theorem c4_pickDirection_reversal (x y : ℚ) (cd : Direction) (tx ty : ℚ)
    (m : GhostMode) (maze : MazeState) (r : ℚ) (h0 : 0 ≤ r) (h1 : r < 1) :
    (pickDirection x y cd tx ty m maze r = oppositeDir cd →
      ∀ d' : Direction, d' ≠ oppositeDir cd →
        ghostIsWallAt maze (x + dirDx d') (y + dirDy d') m = true) ∧
    ((∃ d' : Direction, d' ≠ oppositeDir cd ∧
        ghostIsWallAt maze (x + dirDx d') (y + dirDy d') m = false) →
      pickDirection x y cd tx ty m maze r ≠ oppositeDir cd ∧
      ghostIsWallAt maze (x + dirDx (pickDirection x y cd tx ty m maze r))
        (y + dirDy (pickDirection x y cd tx ty m maze r)) m = false) := by
  rcases pickDirection_mem x y cd tx ty m maze r h0 h1 with ⟨_, hnil⟩ | hmem
  · constructor
    · intro _ d' hd'
      by_contra hw
      rw [Bool.not_eq_true] at hw
      have hd : d' ∈ List.filter (fun d =>
          !(d == oppositeDir cd) &&
            !(ghostIsWallAt maze (x + dirDx d) (y + dirDy d) m))
          [Direction.up, Direction.down, Direction.left, Direction.right] :=
        List.mem_filter.mpr ⟨mem_allDirections d', by simp [hd', hw]⟩
      rw [hnil] at hd
      exact absurd hd (List.not_mem_nil d')
    · rintro ⟨d', hd1, hd2⟩
      exfalso
      have hd : d' ∈ List.filter (fun d =>
          !(d == oppositeDir cd) &&
            !(ghostIsWallAt maze (x + dirDx d) (y + dirDy d) m))
          [Direction.up, Direction.down, Direction.left, Direction.right] :=
        List.mem_filter.mpr ⟨mem_allDirections d', by simp [hd1, hd2]⟩
      rw [hnil] at hd
      exact absurd hd (List.not_mem_nil d')
  · have hp := (List.mem_filter.mp hmem).2
    simp only [Bool.and_eq_true, Bool.not_eq_true', beq_eq_false_iff_ne] at hp
    exact ⟨fun heq => absurd heq hp.1, fun _ => ⟨hp.1, hp.2⟩⟩

/-- C4 witness: at the pen exit of `mazeC2`, moving up in scatter mode with
the tile to the left open, the chosen direction is not the reverse (down)
and its one-tile-ahead tile is open. -/
theorem c4_pickDirection_reversal_witness :
    pickDirection 270 230 .up 270 230 .scatter mazeC2 0 ≠ oppositeDir .up ∧
    ghostIsWallAt mazeC2
      (270 + dirDx (pickDirection 270 230 .up 270 230 .scatter mazeC2 0))
      (230 + dirDy (pickDirection 270 230 .up 270 230 .scatter mazeC2 0))
      .scatter = false :=
  (c4_pickDirection_reversal 270 230 .up 270 230 .scatter mazeC2 0
    (by norm_num) (by norm_num)).2
    ⟨.left, by decide, by
      have h1 : (270:ℚ) + dirDx .left = 250 := by
        rw [show dirDx .left = -TILE from rfl, TILE]; norm_num
      have h2 : (230:ℚ) + dirDy .left = 230 := by
        rw [show dirDy .left = 0 from rfl]; norm_num
      rw [h1, h2, ghostIsWallAt_eq mazeC2 250 230 .scatter 12 11
        (by rw [TILE]; exact jsFloor_eq _ _ (by norm_num) (by norm_num))
        (by rw [TILE]; exact jsFloor_eq _ _ (by norm_num) (by norm_num))]
      decide⟩

/-- `findCrossedCenter` of a zero-length move is `none`. -/
theorem findCrossedCenter_self (a : ℚ) : findCrossedCenter a a = none := by
  rw [findCrossedCenter, if_pos rfl]

/-- With dt = 0, `updateGhost` returns its input unchanged, provided the
ghost is not a pen ghost whose wait timer is already non-positive. -/
theorem updateGhost_dt_zero (g : GhostState) (px py : ℚ) (pf : Direction)
    (maze : MazeState) (c : Bool) (r : ℚ)
    (h : g.mode = .pen → 0 < g.penTimer) :
    updateGhost g px py pf 0 maze c r = g := by
  obtain ⟨gx, gy, gdir, gmode, gft, gpt, gp⟩ := g
  have hft : (if gft > 0 then max 0 (gft - 0) else gft) = gft := by
    split
    · next h1 => rw [sub_zero, max_eq_right h1.le]
    · rfl
  have hcond : ¬(gft > 0 ∧ max 0 (gft - 0) = 0 ∧ gmode = .frightened) := by
    rintro ⟨h1, h2, -⟩
    rw [sub_zero, max_eq_right h1.le] at h2
    exact absurd h2 (ne_of_gt h1)
  by_cases hpen : gmode = .pen
  · subst hpen
    have hpt : 0 < gpt := h rfl
    have hptmax : max 0 (gpt - 0) = gpt := by
      rw [sub_zero, max_eq_right hpt.le]
    simp only [updateGhost, if_neg hcond, hptmax, hft, if_true,
      if_neg (ne_of_gt hpt)]
  · have hft2 : (if gft > 0 then max 0 gft else gft) = gft := by
      split
      · next h1 => rw [max_eq_right h1.le]
      · rfl
    have hcond2 : ¬(gft > 0 ∧ max 0 gft = 0 ∧ gmode = .frightened) := by
      rintro ⟨h1, h2, -⟩
      rw [max_eq_right h1.le] at h2
      exact absurd h2 (ne_of_gt h1)
    simp only [updateGhost, mul_zero, add_zero, sub_zero, ite_self,
      if_neg hcond2, hft2, if_neg hpen, findCrossedCenter_self]

/-- With dt = 0, a pen ghost whose wait timer is exactly 0 changes only its
mode, to exiting. -/
theorem updateGhost_dt_zero_pen (g : GhostState) (px py : ℚ) (pf : Direction)
    (maze : MazeState) (c : Bool) (r : ℚ) (hmode : g.mode = .pen)
    (hpt : g.penTimer = 0) :
    updateGhost g px py pf 0 maze c r = { g with mode := .exiting } := by
  obtain ⟨gx, gy, gdir, gmode, gft, gpt, gp⟩ := g
  subst hmode
  have hpt' : gpt = 0 := hpt
  subst hpt'
  have hft : (if gft > 0 then max 0 (gft - 0) else gft) = gft := by
    split
    · next h1 => rw [sub_zero, max_eq_right h1.le]
    · rfl
  have hcond : ¬(gft > 0 ∧ max 0 (gft - 0) = 0 ∧
      GhostMode.pen = GhostMode.frightened) := by
    rintro ⟨-, -, hx⟩
    exact absurd hx (by decide)
  have hptmax : max (0:ℚ) (0 - 0) = 0 := by norm_num
  simp only [updateGhost, if_neg hcond, hptmax, hft, if_true]

/-- With dt = 0, no held intent, no queued direction, an in-bounds position
and a facing consistent with the current direction, `updatePlayer` only
recomputes `isMoving` to false. -/
theorem updatePlayer_dt_zero (p : PlayerState) (b : Bounds)
    (w : ℚ → ℚ → Bool) (hd : p.desiredDir = none)
    (hfx : ∀ d, p.currentDir = some d → p.facing = d)
    (hx1 : b.xMin.getD R ≤ p.x) (hx2 : p.x ≤ b.xMax.getD (b.width - R))
    (hy1 : R ≤ p.y) (hy2 : p.y ≤ b.height - R) :
    updatePlayer p none 0 b w = { p with isMoving := false } := by
  obtain ⟨px0, py0, pfc, pcd, pdd, pmt, pim⟩ := p
  have hd' : pdd = none := hd
  subst hd'
  have hxx : max (b.xMin.getD R) (min (b.xMax.getD (b.width - R)) px0) =
      px0 := by
    rw [min_eq_right hx2, max_eq_right hx1]
  have hyy : max R (min (b.height - R) py0) = py0 := by
    rw [min_eq_right hy2, max_eq_right hy1]
  cases pcd with
  | none =>
    simp only [updatePlayer, mul_zero, add_zero, sub_zero, ite_self, hxx,
      hyy, beq_self_eq_true, Bool.not_true, Bool.or_self, Option.getD_none]
  | some cd =>
    have hfc : pfc = cd := hfx cd rfl
    subst hfc
    simp only [updatePlayer, mul_zero, add_zero, sub_zero, ite_self, hxx,
      hyy, beq_self_eq_true, Bool.not_true, Bool.or_self, Option.getD_some]

/-- C1 counterexample: `updatePlayer` with dt = 0 and no intent is not a
true no-op — a player whose `isMoving` flag is set but which cannot move
gets a state with `isMoving` recomputed to false, different from the
input. -/
theorem c1_dt_zero_counterexample :
    updatePlayer playerStopped none 0 boundsGame noWalls ≠ playerStopped := by
  intro hEq
  rw [updatePlayer_dt_zero playerStopped boundsGame noWalls rfl
    (fun d h => by cases h)
    (by norm_num [playerStopped, boundsGame, R, PACMAN_RADIUS])
    (by norm_num [playerStopped, boundsGame, R, PACMAN_RADIUS])
    (by norm_num [playerStopped, boundsGame, R, PACMAN_RADIUS])
    (by norm_num [playerStopped, boundsGame, R, PACMAN_RADIUS])] at hEq
  have := congrArg PlayerState.isMoving hEq
  simp [playerStopped] at this

/-- C1 (amended): with dt = 0 the step functions are almost, but not
exactly, no-ops. `updateGhost` returns its input unchanged unless the ghost
is in pen mode with a non-positive wait timer (with a wait timer of exactly
0 only the mode flips to exiting); `updatePlayer` with no held or queued
intent, an in-bounds position and a consistent facing returns its input
with `isMoving` recomputed to false (a true no-op only when `isMoving` was
already false). -/
theorem c1_dt_zero_near_noop :
    (∀ (g : GhostState) (px py : ℚ) (pf : Direction) (maze : MazeState)
      (c : Bool) (r : ℚ), (g.mode = .pen → 0 < g.penTimer) →
      updateGhost g px py pf 0 maze c r = g) ∧
    (∀ (g : GhostState) (px py : ℚ) (pf : Direction) (maze : MazeState)
      (c : Bool) (r : ℚ), g.mode = .pen → g.penTimer = 0 →
      updateGhost g px py pf 0 maze c r = { g with mode := .exiting }) ∧
    (∀ (p : PlayerState) (b : Bounds) (w : ℚ → ℚ → Bool),
      p.desiredDir = none → (∀ d, p.currentDir = some d → p.facing = d) →
      b.xMin.getD R ≤ p.x → p.x ≤ b.xMax.getD (b.width - R) →
      R ≤ p.y → p.y ≤ b.height - R →
      updatePlayer p none 0 b w = { p with isMoving := false }) :=
  ⟨updateGhost_dt_zero, updateGhost_dt_zero_pen,
    fun p b w hd hfx hx1 hx2 hy1 hy2 =>
      updatePlayer_dt_zero p b w hd hfx hx1 hx2 hy1 hy2⟩

/-- C1 witness: stepping the pen ghost `gPen` (wait timer 3) and the
stopped player `playerStopped` with dt = 0: the ghost is unchanged and the
player only has `isMoving` reset. -/
theorem c1_dt_zero_near_noop_witness :
    updateGhost gPen 0 0 .right 0 mazeTriv true 0 = gPen ∧
    updatePlayer playerStopped none 0 boundsGame noWalls =
      { playerStopped with isMoving := false } :=
  ⟨c1_dt_zero_near_noop.1 gPen 0 0 .right mazeTriv true 0
      (fun _ => by norm_num [gPen]),
    c1_dt_zero_near_noop.2.2 playerStopped boundsGame noWalls rfl
      (fun d h => by cases h)
      (by norm_num [playerStopped, boundsGame, R, PACMAN_RADIUS])
      (by norm_num [playerStopped, boundsGame, R, PACMAN_RADIUS])
      (by norm_num [playerStopped, boundsGame, R, PACMAN_RADIUS])
      (by norm_num [playerStopped, boundsGame, R, PACMAN_RADIUS])⟩

/-- When the mode resulting from the frightened-timer handling is none of
pen, exiting or eaten, the rest of the `updateGhost` step (movement,
crossing detection, direction choice) cannot change it, and the two timers
follow their simple update rules. -/
theorem updateGhost_mode_of_roaming (g : GhostState) (px py : ℚ)
    (pf : Direction) (dt : ℚ) (maze : MazeState) (c : Bool) (r : ℚ)
    (m1 : GhostMode)
    (hm1 : (if g.frightenedTimer > 0 ∧ max 0 (g.frightenedTimer - dt) = 0 ∧
        g.mode = .frightened then
        (if c then GhostMode.chase else .scatter) else g.mode) = m1)
    (hnp : m1 ≠ .pen) (hne : m1 ≠ .exiting) (hnq : m1 ≠ .eaten) :
    (updateGhost g px py pf dt maze c r).mode = m1 ∧
    (updateGhost g px py pf dt maze c r).frightenedTimer =
      (if g.frightenedTimer > 0 then max 0 (g.frightenedTimer - dt)
       else g.frightenedTimer) ∧
    (updateGhost g px py pf dt maze c r).penTimer = g.penTimer := by
  simp only [updateGhost, hm1]
  rw [if_neg hnp]
  split
  · refine ⟨?_, ?_, ?_⟩ <;> first | rfl | trivial
  · simp only [if_neg (fun hc => hne (And.left hc)),
      if_neg (fun hc => hnq (And.left hc))]
    refine ⟨?_, ?_, ?_⟩ <;> first | rfl | trivial

/-- C5: a single `updateGhost` step from frightened mode never yields eaten:
the result is frightened, chase or scatter; when the positive timer expires
within the step (frightenedTimer ≤ dt) the result follows the global phase —
chase if `isChasing`, else scatter — and when it does not expire the ghost
stays frightened. -/
theorem c5_frightened_never_eaten (g : GhostState) (px py : ℚ)
    (pf : Direction) (dt : ℚ) (maze : MazeState) (c : Bool) (r : ℚ)
    (hmode : g.mode = .frightened) :
    ((updateGhost g px py pf dt maze c r).mode = .frightened ∨
      (updateGhost g px py pf dt maze c r).mode =
        (if c then GhostMode.chase else .scatter)) ∧
    (updateGhost g px py pf dt maze c r).mode ≠ .eaten ∧
    (0 < g.frightenedTimer → g.frightenedTimer ≤ dt →
      (updateGhost g px py pf dt maze c r).mode =
        (if c then GhostMode.chase else .scatter)) ∧
    (0 < g.frightenedTimer → dt < g.frightenedTimer →
      (updateGhost g px py pf dt maze c r).mode = .frightened) := by
  have h := updateGhost_mode_of_roaming g px py pf dt maze c r
    (if g.frightenedTimer > 0 ∧ max 0 (g.frightenedTimer - dt) = 0 then
      (if c then GhostMode.chase else .scatter) else .frightened)
    (by rw [hmode]; simp)
    (by split_ifs <;> cases c <;> decide)
    (by split_ifs <;> cases c <;> decide)
    (by split_ifs <;> cases c <;> decide)
  rw [h.1]
  refine ⟨?_, ?_, ?_, ?_⟩
  · by_cases hc : g.frightenedTimer > 0 ∧ max 0 (g.frightenedTimer - dt) = 0
    · rw [if_pos hc]; right; rfl
    · rw [if_neg hc]; left; rfl
  · split_ifs <;> cases c <;> decide
  · intro h1 h2
    rw [if_pos ⟨h1, max_eq_left (by linarith)⟩]
  · intro h1 h2
    rw [if_neg]
    rintro ⟨-, hmax⟩
    have : (0:ℚ) < g.frightenedTimer - dt := by linarith
    have hle : g.frightenedTimer - dt ≤ max 0 (g.frightenedTimer - dt) :=
      le_max_right _ _
    rw [hmax] at hle
    linarith

/-- C5 witness: the frightened ghost `gFright` (timer 1) stepped by dt = 2
with the global phase chasing: its mode follows the phase (chase), is not
eaten, and is not frightened any more. -/
theorem c5_frightened_never_eaten_witness :
    ((updateGhost gFright 0 0 .right 2 mazeTriv true 0).mode = .frightened ∨
      (updateGhost gFright 0 0 .right 2 mazeTriv true 0).mode =
        (if true then GhostMode.chase else .scatter)) ∧
    (updateGhost gFright 0 0 .right 2 mazeTriv true 0).mode ≠ .eaten ∧
    (0 < gFright.frightenedTimer → gFright.frightenedTimer ≤ 2 →
      (updateGhost gFright 0 0 .right 2 mazeTriv true 0).mode =
        (if true then GhostMode.chase else .scatter)) ∧
    (0 < gFright.frightenedTimer → 2 < gFright.frightenedTimer →
      (updateGhost gFright 0 0 .right 2 mazeTriv true 0).mode =
        .frightened) :=
  c5_frightened_never_eaten gFright 0 0 .right 2 mazeTriv true 0 rfl

/-- A ghost moving up from below crosses the pen-exit row centre when its
tick distance is at least its offset `a` below the centre (a < TILE). -/
theorem findCrossedCenter_up_exit (a dist : ℚ) (ha0 : 0 < a) (ha20 : a < 20)
    (had : a ≤ dist) :
    findCrossedCenter (PEN_EXIT_Y + a) (PEN_EXIT_Y + a - dist) =
      some PEN_EXIT_Y := by
  have hdist : 0 < dist := lt_of_lt_of_le ha0 had
  have hpey : PEN_EXIT_Y = 230 := by rw [PEN_EXIT_Y, TILE]; norm_num
  have hne : ¬(PEN_EXIT_Y + a = PEN_EXIT_Y + a - dist) := by
    intro h
    have : dist = 0 := by linarith
    linarith
  have hmin : min (PEN_EXIT_Y + a) (PEN_EXIT_Y + a - dist) =
      PEN_EXIT_Y + a - dist := min_eq_right (by linarith)
  have hmax : max (PEN_EXIT_Y + a) (PEN_EXIT_Y + a - dist) =
      PEN_EXIT_Y + a := max_eq_left (by linarith)
  have hkH : jsFloor ((max (PEN_EXIT_Y + a) (PEN_EXIT_Y + a - dist) -
      TILE / 2) / TILE) = 11 := by
    rw [hmax, hpey, TILE]
    apply jsFloor_eq
    · push_cast
      rw [le_div_iff₀ (by norm_num : (0:ℚ) < 20)]
      linarith
    · push_cast
      rw [div_lt_iff₀ (by norm_num : (0:ℚ) < 20)]
      linarith
  have hkL : jsCeil ((min (PEN_EXIT_Y + a) (PEN_EXIT_Y + a - dist) -
      TILE / 2) / TILE) ≤ 11 := by
    rw [hmin, hpey, TILE, jsCeil, Int.ceil_le]
    push_cast
    rw [div_le_iff₀ (by norm_num : (0:ℚ) < 20)]
    linarith
  have hnotgt : ¬(PEN_EXIT_Y + a - dist > PEN_EXIT_Y + a) := by
    rw [not_lt]
    linarith
  simp only [findCrossedCenter, if_neg hne, hkH]
  rw [if_neg (by omega : ¬(jsCeil ((min (PEN_EXIT_Y + a)
    (PEN_EXIT_Y + a - dist) - TILE / 2) / TILE) > 11)),
    if_neg hnotgt, hpey, TILE]
  norm_num

/-- The pen-exit x coordinate is already a tile centre, so snapping fixes
it. -/
theorem snapToCenter_penExitX : snapToCenter PEN_EXIT_X = PEN_EXIT_X := by
  rw [snapToCenter, PEN_EXIT_X, TILE, jsRound]
  norm_num

/-- Core of C2: a ghost in exiting mode moving up that reaches the pen exit
during the step has its new direction chosen by `pickDirection` called with
the pen-exit point as target — the target computed for the old exiting mode
at the start of the tick — while the mode argument is already the new
chase/scatter mode. -/
theorem updateGhost_exit_arrival (g : GhostState) (px py : ℚ)
    (pf : Direction) (dt : ℚ) (maze : MazeState) (c : Bool) (r : ℚ) (a : ℚ)
    (hmode : g.mode = .exiting) (hdir : g.dir = .up)
    (hx : g.x = PEN_EXIT_X) (hy : g.y = PEN_EXIT_Y + a)
    (hf : g.frightenedTimer = 0) (ha0 : 0 < a) (ha20 : a < 20)
    (had : a ≤ GHOST_SPEED * dt) :
    (updateGhost g px py pf dt maze c r).dir =
      pickDirection PEN_EXIT_X PEN_EXIT_Y .up PEN_EXIT_X PEN_EXIT_Y
        (if c then .chase else .scatter) maze r ∧
    (updateGhost g px py pf dt maze c r).mode =
      (if c then GhostMode.chase else .scatter) := by
  obtain ⟨gx, gy, gdir, gmode, gft, gpt, gp⟩ := g
  subst hmode hdir hf hx hy
  have hfcc := findCrossedCenter_up_exit a (GHOST_SPEED * dt) ha0 ha20 had
  have hlt01 : ((0:ℚ) < 1) = True := eq_true (by norm_num)
  have hentc : ¬((if c then GhostMode.chase else .scatter) = .eaten ∧
      |PEN_EXIT_X - PEN_ENTRANCE_X| < 1 ∧
      |PEN_EXIT_Y - PEN_ENTRANCE_Y| < 1) := by
    rintro ⟨h1, -⟩
    cases c <;> simp at h1
  simp [updateGhost, ghostTarget]
  rw [hfcc]
  simp [snapToCenter_penExitX, sub_self, abs_zero, hlt01, if_neg hentc]

/-- Same step for the spec-modelled variant: `updateGhostSpec` chooses the
new direction with the target recomputed for the new chase/scatter mode. -/
theorem updateGhostSpec_exit_arrival (g : GhostState) (px py : ℚ)
    (pf : Direction) (dt : ℚ) (maze : MazeState) (c : Bool) (r : ℚ) (a : ℚ)
    (hmode : g.mode = .exiting) (hdir : g.dir = .up)
    (hx : g.x = PEN_EXIT_X) (hy : g.y = PEN_EXIT_Y + a)
    (hf : g.frightenedTimer = 0) (ha0 : 0 < a) (ha20 : a < 20)
    (had : a ≤ GHOST_SPEED * dt) :
    (updateGhostSpec g px py pf dt maze c r).dir =
      pickDirection PEN_EXIT_X PEN_EXIT_Y .up
        (ghostTarget g (if c then .chase else .scatter) px py pf).1
        (ghostTarget g (if c then .chase else .scatter) px py pf).2
        (if c then .chase else .scatter) maze r ∧
    (updateGhostSpec g px py pf dt maze c r).mode =
      (if c then GhostMode.chase else .scatter) := by
  obtain ⟨gx, gy, gdir, gmode, gft, gpt, gp⟩ := g
  subst hmode hdir hf hx hy
  have hfcc := findCrossedCenter_up_exit a (GHOST_SPEED * dt) ha0 ha20 had
  have hlt01 : ((0:ℚ) < 1) = True := eq_true (by norm_num)
  have hentc : ¬((if c then GhostMode.chase else .scatter) = .eaten ∧
      |PEN_EXIT_X - PEN_ENTRANCE_X| < 1 ∧
      |PEN_EXIT_Y - PEN_ENTRANCE_Y| < 1) := by
    rintro ⟨h1, -⟩
    cases c <;> simp at h1
  simp [updateGhostSpec]
  rw [hfcc]
  simp [snapToCenter_penExitX, sub_self, abs_zero, hlt01, if_neg hentc]

/-- The tile above the pen exit of `mazeC2` is a wall. -/
theorem mazeC2_wall_up : ghostIsWallAt mazeC2 270 210 .scatter = true := by
  rw [ghostIsWallAt_eq mazeC2 270 210 .scatter 13 10
    (by rw [TILE]; exact jsFloor_eq _ _ (by norm_num) (by norm_num))
    (by rw [TILE]; exact jsFloor_eq _ _ (by norm_num) (by norm_num))]
  decide

/-- The door below the pen exit of `mazeC2` blocks a scatter ghost. -/
theorem mazeC2_wall_down : ghostIsWallAt mazeC2 270 250 .scatter = true := by
  rw [ghostIsWallAt_eq mazeC2 270 250 .scatter 13 12
    (by rw [TILE]; exact jsFloor_eq _ _ (by norm_num) (by norm_num))
    (by rw [TILE]; exact jsFloor_eq _ _ (by norm_num) (by norm_num))]
  decide

/-- The tile left of the pen exit of `mazeC2` is open. -/
theorem mazeC2_wall_left : ghostIsWallAt mazeC2 250 230 .scatter = false := by
  rw [ghostIsWallAt_eq mazeC2 250 230 .scatter 12 11
    (by rw [TILE]; exact jsFloor_eq _ _ (by norm_num) (by norm_num))
    (by rw [TILE]; exact jsFloor_eq _ _ (by norm_num) (by norm_num))]
  decide

/-- The tile right of the pen exit of `mazeC2` is open. -/
theorem mazeC2_wall_right : ghostIsWallAt mazeC2 290 230 .scatter = false := by
  rw [ghostIsWallAt_eq mazeC2 290 230 .scatter 14 11
    (by rw [TILE]; exact jsFloor_eq _ _ (by norm_num) (by norm_num))
    (by rw [TILE]; exact jsFloor_eq _ _ (by norm_num) (by norm_num))]
  decide

/-- One-tile-ahead probe offsets at the pen exit, evaluated. -/
theorem probe_up_x : (270:ℚ) + dirDx .up = 270 := by
  rw [show dirDx .up = 0 from rfl]; norm_num

theorem probe_up_y : (230:ℚ) + dirDy .up = 210 := by
  rw [show dirDy .up = -TILE from rfl, TILE]; norm_num

theorem probe_down_x : (270:ℚ) + dirDx .down = 270 := by
  rw [show dirDx .down = 0 from rfl]; norm_num

theorem probe_down_y : (230:ℚ) + dirDy .down = 250 := by
  rw [show dirDy .down = TILE from rfl, TILE]; norm_num

theorem probe_left_x : (270:ℚ) + dirDx .left = 250 := by
  rw [show dirDx .left = -TILE from rfl, TILE]; norm_num

theorem probe_left_y : (230:ℚ) + dirDy .left = 230 := by
  rw [show dirDy .left = 0 from rfl]; norm_num

theorem probe_right_x : (270:ℚ) + dirDx .right = 290 := by
  rw [show dirDx .right = TILE from rfl, TILE]; norm_num

theorem probe_right_y : (230:ℚ) + dirDy .right = 230 := by
  rw [show dirDy .right = 0 from rfl]; norm_num

/-- The candidate list at the pen exit of `mazeC2` for a scatter ghost that
was moving up: only left and right survive (up is a wall, down is the
reverse). -/
theorem mazeC2_valid_list :
    List.filter (fun d => !(d == Direction.down) &&
      !(ghostIsWallAt mazeC2 ((270:ℚ) + dirDx d) ((230:ℚ) + dirDy d)
        GhostMode.scatter))
      [Direction.up, Direction.down, Direction.left, Direction.right] =
      [Direction.left, Direction.right] := by
  simp [probe_up_x, probe_up_y, probe_down_x, probe_down_y, probe_left_x,
    probe_left_y, probe_right_x, probe_right_y, mazeC2_wall_up,
    mazeC2_wall_down, mazeC2_wall_left, mazeC2_wall_right]

/-- `pickDirection` at the pen exit with the stale pen-exit target: the tie
between left and right resolves to left (source order). -/
theorem pickDirection_stale_target :
    pickDirection 270 230 .up 270 230 .scatter mazeC2 0 = .left := by
  simp only [pickDirection]
  rw [show oppositeDir Direction.up = Direction.down from rfl,
    mazeC2_valid_list]
  simp only [List.foldl_cons, List.foldl_nil]
  rw [if_neg (show ¬(GhostMode.scatter = GhostMode.frightened) from
    by decide)]
  rw [show dirDx Direction.right = TILE from rfl,
    show dirDy Direction.right = 0 from rfl,
    show dirDx Direction.left = -TILE from rfl,
    show dirDy Direction.left = 0 from rfl, TILE]
  norm_num

/-- `pickDirection` at the pen exit with Blinky's recomputed scatter-corner
target (510, 30): right is strictly closer, so right is chosen. -/
theorem pickDirection_fresh_target :
    pickDirection 270 230 .up 510 30 .scatter mazeC2 0 = .right := by
  simp only [pickDirection]
  rw [show oppositeDir Direction.up = Direction.down from rfl,
    mazeC2_valid_list]
  simp only [List.foldl_cons, List.foldl_nil]
  rw [if_neg (show ¬(GhostMode.scatter = GhostMode.frightened) from
    by decide)]
  rw [show dirDx Direction.right = TILE from rfl,
    show dirDy Direction.right = 0 from rfl,
    show dirDx Direction.left = -TILE from rfl,
    show dirDy Direction.left = 0 from rfl, TILE]
  norm_num

/-- C2 counterexample: the exiting ghost `gC2` arriving at the pen exit of
`mazeC2` is stepped differently by the code and by the spec-modelled
variant that recomputes the target for the new mode — the code keeps the
stale pen-exit target and turns left on the tie, the spec's ghost heads
right toward its scatter corner. -/
theorem c2_stale_target_counterexample :
    updateGhost gC2 0 0 .right (6/115) mazeC2 false 0 ≠
      updateGhostSpec gC2 0 0 .right (6/115) mazeC2 false 0 := by
  have hpex : PEN_EXIT_X = 270 := by rw [PEN_EXIT_X, TILE]; norm_num
  have hpey : PEN_EXIT_Y = 230 := by rw [PEN_EXIT_Y, TILE]; norm_num
  have h1 := updateGhost_exit_arrival gC2 0 0 .right (6/115) mazeC2 false 0
    5 rfl rfl (by rw [gC2, hpex]) (by rw [gC2, hpey]; norm_num) rfl
    (by norm_num) (by norm_num) (by rw [GHOST_SPEED]; norm_num)
  have h2 := updateGhostSpec_exit_arrival gC2 0 0 .right (6/115) mazeC2
    false 0 5 rfl rfl (by rw [gC2, hpex]) (by rw [gC2, hpey]; norm_num) rfl
    (by norm_num) (by norm_num) (by rw [GHOST_SPEED]; norm_num)
  have htgt : ghostTarget gC2 (if false then .chase else .scatter) 0 0
      .right = ((510:ℚ), (30:ℚ)) := by
    rw [ghostTarget.eq_def]
    simp [gC2, SCATTER_TARGETS, TILE]
    norm_num
  intro hEq
  have hdir := congrArg GhostState.dir hEq
  rw [h1.1, h2.1, htgt, hpex, hpey] at hdir
  rw [show (if false then GhostMode.chase else .scatter) = GhostMode.scatter
    from rfl] at hdir
  rw [pickDirection_stale_target, pickDirection_fresh_target] at hdir
  exact absurd hdir (by decide)

/-- C2 (amended): when a tile-centre crossing completes the exiting mode at
the pen exit, `updateGhost` passes `pickDirection` the new chase/scatter
mode but the target computed for the old exiting mode at the start of the
tick — the pen-exit point itself — not the target of the new mode. -/
theorem c2_waypoint_target_stale (g : GhostState) (px py : ℚ)
    (pf : Direction) (dt : ℚ) (maze : MazeState) (c : Bool) (r : ℚ) (a : ℚ)
    (hmode : g.mode = .exiting) (hdir : g.dir = .up)
    (hx : g.x = PEN_EXIT_X) (hy : g.y = PEN_EXIT_Y + a)
    (hf : g.frightenedTimer = 0) (ha0 : 0 < a) (ha20 : a < 20)
    (had : a ≤ GHOST_SPEED * dt) :
    (updateGhost g px py pf dt maze c r).dir =
      pickDirection PEN_EXIT_X PEN_EXIT_Y .up PEN_EXIT_X PEN_EXIT_Y
        (if c then .chase else .scatter) maze r ∧
    (updateGhost g px py pf dt maze c r).mode =
      (if c then GhostMode.chase else .scatter) :=
  updateGhost_exit_arrival g px py pf dt maze c r a hmode hdir hx hy hf
    ha0 ha20 had

/-- C2 witness: the concrete exiting ghost `gC2` (5 px below the exit,
tick distance 6 px): its new direction is picked with the pen-exit point as
target and the new scatter mode. -/
theorem c2_waypoint_target_stale_witness :
    (updateGhost gC2 0 0 .right (6/115) mazeC2 false 0).dir =
      pickDirection PEN_EXIT_X PEN_EXIT_Y .up PEN_EXIT_X PEN_EXIT_Y
        (if false then .chase else .scatter) mazeC2 0 ∧
    (updateGhost gC2 0 0 .right (6/115) mazeC2 false 0).mode =
      (if false then GhostMode.chase else .scatter) :=
  c2_waypoint_target_stale gC2 0 0 .right (6/115) mazeC2 false 0 5 rfl rfl
    (by rw [gC2]; rw [PEN_EXIT_X, TILE]; norm_num)
    (by rw [gC2]; rw [PEN_EXIT_Y, TILE]; norm_num)
    rfl (by norm_num) (by norm_num) (by rw [GHOST_SPEED]; norm_num)

/-- C6 counterexample: a ghost in pen mode with a leftover positive
frightened timer (5 s) stepped by dt = 1 s has its frightened timer changed
as well (to 4), so the pen wait timer is not the only timer that
decreases. -/
theorem c6_pen_counterexample :
    (updateGhost gPen 0 0 .right 1 mazeTriv true 0).frightenedTimer ≠
      gPen.frightenedTimer := by
  have h4 : max (0:ℚ) (5 - 1) = 4 := by norm_num
  have h2 : max (0:ℚ) (3 - 1) = 2 := by norm_num
  simp only [updateGhost, gPen, h4, h2]
  norm_num

/-- C6 (amended): for a ghost in pen mode, `updateGhost` leaves position,
direction and personality unchanged, sets the pen timer to
`max 0 (penTimer − dt)`, also decreases a positive frightened timer by the
same clamped rule (so the pen timer is not the only field that can change),
and the resulting mode is exiting exactly when the new pen timer is 0. -/
theorem c6_pen_mode (g : GhostState) (px py : ℚ) (pf : Direction) (dt : ℚ)
    (maze : MazeState) (c : Bool) (r : ℚ) (hmode : g.mode = .pen) :
    (updateGhost g px py pf dt maze c r).x = g.x ∧
    (updateGhost g px py pf dt maze c r).y = g.y ∧
    (updateGhost g px py pf dt maze c r).dir = g.dir ∧
    (updateGhost g px py pf dt maze c r).personality = g.personality ∧
    (updateGhost g px py pf dt maze c r).penTimer = max 0 (g.penTimer - dt) ∧
    (updateGhost g px py pf dt maze c r).frightenedTimer =
      (if g.frightenedTimer > 0 then max 0 (g.frightenedTimer - dt)
       else g.frightenedTimer) ∧
    ((updateGhost g px py pf dt maze c r).mode = .exiting ↔
      max 0 (g.penTimer - dt) = 0) ∧
    (max 0 (g.penTimer - dt) ≠ 0 →
      (updateGhost g px py pf dt maze c r).mode = .pen) := by
  obtain ⟨gx, gy, gdir, gmode, gft, gpt, gp⟩ := g
  subst hmode
  by_cases hp : max 0 (gpt - dt) = 0
  · simp [updateGhost, hp]
  · simp [updateGhost, hp]

/-- C6 witness: the pen ghost `gPen` (penTimer 3, frightened timer 5)
stepped by dt = 1: position/direction unchanged, penTimer 2, mode stays
pen. -/
theorem c6_pen_mode_witness :
    (updateGhost gPen 0 0 .right 1 mazeTriv true 0).x = gPen.x ∧
    (updateGhost gPen 0 0 .right 1 mazeTriv true 0).y = gPen.y ∧
    (updateGhost gPen 0 0 .right 1 mazeTriv true 0).dir = gPen.dir ∧
    (updateGhost gPen 0 0 .right 1 mazeTriv true 0).personality =
      gPen.personality ∧
    (updateGhost gPen 0 0 .right 1 mazeTriv true 0).penTimer =
      max 0 (gPen.penTimer - 1) ∧
    (updateGhost gPen 0 0 .right 1 mazeTriv true 0).frightenedTimer =
      (if gPen.frightenedTimer > 0 then max 0 (gPen.frightenedTimer - 1)
       else gPen.frightenedTimer) ∧
    ((updateGhost gPen 0 0 .right 1 mazeTriv true 0).mode = .exiting ↔
      max 0 (gPen.penTimer - 1) = 0) ∧
    (max 0 (gPen.penTimer - 1) ≠ 0 →
      (updateGhost gPen 0 0 .right 1 mazeTriv true 0).mode = .pen) :=
  c6_pen_mode gPen 0 0 .right 1 mazeTriv true 0 rfl

/-- C8: a perpendicular turn request is granted exactly when, after snapping
the off-axis coordinate to the nearest tile centre, the three leading-edge
probes of `canMoveInDir` in the requested direction are clear; in
particular the player at x = 292 moving right with no wall above,
requesting up, ends with x snapped to 290 and currentDir = up. -/
theorem c8_perpendicular_turn_snap :
    (∀ (p : PlayerState) (d : Option Direction) (dt : ℚ) (b : Bounds)
      (w : ℚ → ℚ → Bool) (dd cd : Direction),
      (match d with | some v => some v | none => p.desiredDir) = some dd →
      p.currentDir = some cd →
      isHorizontal cd ≠ isHorizontal dd →
      ((updatePlayer p d dt b w).currentDir = some dd ↔
        canMoveInDir (if isHorizontal cd then nearestTileCenter p.x else p.x)
          (if isHorizontal cd then p.y else nearestTileCenter p.y) dd 1 w =
          true)) ∧
    ((updatePlayer playerC8 (some .up) 0 boundsGame noWalls).x = 290 ∧
      (updatePlayer playerC8 (some .up) 0 boundsGame noWalls).currentDir =
        some .up) := by
  constructor
  · intro p d dt b w dd cd hdd hcd hperp
    obtain ⟨px0, py0, pfc, pcd, pdd, pmt, pim⟩ := p
    have hcd' : pcd = some cd := hcd
    subst hcd'
    have hne : cd ≠ dd := fun h => hperp (by rw [h])
    simp only [updatePlayer, hdd, tryTurn, if_pos hperp]
    by_cases hH : isHorizontal cd = true
    · by_cases hcm : canMoveInDir (nearestTileCenter px0) py0 dd 1 w = true
      · simp [hH, hcm]
      · simp [hH, hcm, hne]
    · rw [Bool.not_eq_true] at hH
      by_cases hcm : canMoveInDir px0 (nearestTileCenter py0) dd 1 w = true
      · simp [hH, hcm]
      · simp [hH, hcm, hne]
  · have hntc : nearestTileCenter 292 = 290 := by
      rw [nearestTileCenter, HALF_TILE, TILE, jsRound]
      norm_num
    have hcm : ∀ (x y : ℚ) (d : Direction) (dist : ℚ),
        canMoveInDir x y d dist noWalls = true := by
      intro x y d dist
      cases d <;> rfl
    have ht : tryTurn 292 230 (some .right) .up noWalls =
        { allowed := true, snapX := 290, snapY := 230 } := by
      simp only [tryTurn]
      rw [if_pos (show isHorizontal Direction.right ≠ isHorizontal
        Direction.up by decide)]
      rw [if_pos (show isHorizontal Direction.right = true by rfl)]
      simp only [hntc, hcm]
    have hx : max R (min (560 - R) (290:ℚ)) = 290 := by
      rw [R, PACMAN_RADIUS]
      norm_num
    have hy : max R (min (620 - R) (230:ℚ)) = 230 := by
      rw [R, PACMAN_RADIUS]
      norm_num
    have him : ((290:ℚ) == 292) = false := beq_eq_false_iff_ne.mpr
      (by norm_num)
    constructor <;>
      simp [updatePlayer, playerC8, ht, hcm, hx, hy, him, boundsGame,
        Option.getD_none, mul_zero, sub_zero]

/-- C8 witness: the general clause applied to the concrete scenario — the
turn is granted exactly when the three probes at the snapped position
(290, 230) are clear, which they are under the no-wall predicate. -/
theorem c8_perpendicular_turn_snap_witness :
    (updatePlayer playerC8 (some .up) 0 boundsGame noWalls).currentDir =
      some .up ↔
    canMoveInDir
      (if isHorizontal .right then nearestTileCenter playerC8.x
       else playerC8.x)
      (if isHorizontal .right then playerC8.y
       else nearestTileCenter playerC8.y) .up 1 noWalls = true :=
  c8_perpendicular_turn_snap.1 playerC8 (some .up) 0 boundsGame noWalls
    .up .right rfl rfl (by decide)

/-- C9: `wrapTunnels` on the tunnel row (the row index of the player's pixel
y) maps x < 0 to `canvasWidth − PACMAN_RADIUS` and x ≥ canvasWidth to
`PACMAN_RADIUS`, leaving every other field unchanged; on-screen x and any
non-tunnel row are returned unchanged. -/
theorem c9_wrapTunnels_spec (p : PlayerState) (tr : ℤ) (w : ℚ) (hw : 0 < w) :
    (jsFloor (p.y / TILE) = tr → p.x < 0 →
      wrapTunnels p tr w = { p with x := w - PACMAN_RADIUS }) ∧
    (jsFloor (p.y / TILE) = tr → w ≤ p.x →
      wrapTunnels p tr w = { p with x := PACMAN_RADIUS }) ∧
    (jsFloor (p.y / TILE) = tr → 0 ≤ p.x → p.x < w → wrapTunnels p tr w = p) ∧
    (jsFloor (p.y / TILE) ≠ tr → wrapTunnels p tr w = p) := by
  unfold wrapTunnels
  refine ⟨fun hrow hx => ?_, fun hrow hx => ?_, fun hrow hx0 hxw => ?_,
    fun hrow => ?_⟩
  · rw [if_neg (by simp [hrow]), if_pos hx]
  · have hx0 : ¬p.x < 0 := not_lt.mpr (le_trans hw.le hx)
    rw [if_neg (by simp [hrow]), if_neg hx0, if_pos (le_of_le_of_eq hx rfl)]
  · rw [if_neg (by simp [hrow]), if_neg (not_lt.mpr hx0),
      if_neg (not_le.mpr hxw)]
  · rw [if_pos hrow]

/-- C9 witness: the player at x = −2 on the tunnel row of the 560-px canvas
wraps to x = 550. -/
theorem c9_wrapTunnels_witness :
    wrapTunnels playerTunnel 14 560 =
      { playerTunnel with x := 560 - PACMAN_RADIUS } :=
  (c9_wrapTunnels_spec playerTunnel 14 560 (by norm_num)).1
    (by norm_num [playerTunnel, jsFloor, TILE])
    (by norm_num [playerTunnel])

/-- C10: whenever the clamp intervals are non-empty, the player state
returned by `updatePlayer` lies inside them on both axes, whatever the
input state, intent, elapsed time and wall predicate were. -/
theorem c10_updatePlayer_clamped (p : PlayerState) (d : Option Direction)
    (dt : ℚ) (b : Bounds) (w : ℚ → ℚ → Bool)
    (hx : b.xMin.getD R ≤ b.xMax.getD (b.width - R))
    (hy : R ≤ b.height - R) :
    b.xMin.getD R ≤ (updatePlayer p d dt b w).x ∧
    (updatePlayer p d dt b w).x ≤ b.xMax.getD (b.width - R) ∧
    R ≤ (updatePlayer p d dt b w).y ∧
    (updatePlayer p d dt b w).y ≤ b.height - R := by
  unfold updatePlayer
  refine ⟨le_max_left _ _, max_le hx (min_le_left _ _),
    le_max_left _ _, max_le hy (min_le_left _ _)⟩

/-- C10 witness: a player far outside the 560×620 canvas is pulled back into
[R, 550] × [R, 610] (its x lands at least at R = 10). -/
theorem c10_updatePlayer_clamped_witness :
    (boundsGame.xMin.getD R ≤
      (updatePlayer (createPlayer (-300) 10000) none 0 boundsGame noWalls).x) ∧
    ((updatePlayer (createPlayer (-300) 10000) none 0 boundsGame noWalls).x ≤
      boundsGame.xMax.getD (boundsGame.width - R)) ∧
    (R ≤ (updatePlayer (createPlayer (-300) 10000) none 0 boundsGame
      noWalls).y) ∧
    ((updatePlayer (createPlayer (-300) 10000) none 0 boundsGame noWalls).y ≤
      boundsGame.height - R) :=
  c10_updatePlayer_clamped (createPlayer (-300) 10000) none 0 boundsGame
    noWalls (by norm_num [boundsGame, R, PACMAN_RADIUS])
    (by norm_num [boundsGame, R, PACMAN_RADIUS])

/-- C7: `eatDots` keeps exactly the input dots whose squared distance from
the player exceeds the squared radius (for a radius r ≥ 0 this says the
centre lies strictly farther than r, so dots within r inclusive are
removed), and the result is a sublist of the input — the input list itself
is untouched, order and elements preserved. -/
theorem c7_eatDots_spec (dots : List Dot) (px py r : ℚ) (hr : 0 ≤ r) :
    (∀ d : Dot, d ∈ eatDots dots px py r ↔ d ∈ dots ∧
      (d.x - px) * (d.x - px) + (d.y - py) * (d.y - py) > r * r) ∧
    (eatDots dots px py r).Sublist dots := by
  constructor
  · intro d
    unfold eatDots
    rw [List.mem_filter, decide_eq_true_eq]
  · exact List.filter_sublist dots

/-- C3 counterexample: `findCrossedCenter 10 30` is non-null and returns the
centre 10, yet 10 is not strictly between 10 and 30 (it equals the start
position) — the code detects centres in the closed interval, so a centre
sitting exactly on an endpoint already counts as crossed. -/
theorem c3_findCrossedCenter_counterexample :
    findCrossedCenter 10 30 = some 10 ∧ ¬((10:ℚ) < 10 ∧ (10:ℚ) < 30) := by
  constructor
  · have hkL : jsCeil ((min (10:ℚ) 30 - TILE / 2) / TILE) = 0 :=
      jsCeil_eq _ _ (by rw [TILE]; norm_num) (by rw [TILE]; norm_num)
    have hkH : jsFloor ((max (10:ℚ) 30 - TILE / 2) / TILE) = 1 :=
      jsFloor_eq _ _ (by rw [TILE]; norm_num) (by rw [TILE]; norm_num)
    simp only [findCrossedCenter, hkL, hkH]
    rw [if_neg (by norm_num), if_neg (by decide), if_pos (by norm_num)]
    norm_num [TILE]
  · norm_num

/-- C3 (amended): `findCrossedCenter f t` is non-null exactly when `f ≠ t`
and some tile centre `k*TILE + TILE/2` lies in the closed interval
`[min f t, max f t]` (endpoints included, not strictly between); when it
returns a centre, that centre lies in the closed interval and is the first
crossed centre in the direction of travel — the one closest to `f`. -/
theorem c3_findCrossedCenter_characterization (f t : ℚ) :
    (f = t → findCrossedCenter f t = none) ∧
    (f ≠ t → ((∃ k : ℤ, min f t ≤ (k : ℚ) * TILE + TILE / 2 ∧
        (k : ℚ) * TILE + TILE / 2 ≤ max f t) ↔
      (findCrossedCenter f t).isSome)) ∧
    (∀ c, findCrossedCenter f t = some c →
      ((∃ k : ℤ, c = (k : ℚ) * TILE + TILE / 2) ∧
        min f t ≤ c ∧ c ≤ max f t ∧
        ∀ k : ℤ, min f t ≤ (k : ℚ) * TILE + TILE / 2 →
          (k : ℚ) * TILE + TILE / 2 ≤ max f t →
          |c - f| ≤ |(k : ℚ) * TILE + TILE / 2 - f|)) := by
  refine ⟨fun hft => by rw [findCrossedCenter, if_pos hft], fun hft => ?_,
    fun c hc => ?_⟩
  · rw [findCrossedCenter, if_neg hft]
    by_cases hk : jsCeil ((min f t - TILE / 2) / TILE) >
        jsFloor ((max f t - TILE / 2) / TILE)
    · rw [if_pos hk]
      simp only [Option.isSome_none, Bool.false_eq_true, iff_false]
      rintro ⟨k, hmem⟩
      rw [center_mem_iff] at hmem
      omega
    · rw [if_neg hk]
      simp only [Option.isSome_some, iff_true]
      exact ⟨jsCeil ((min f t - TILE / 2) / TILE),
        (center_mem_iff _ _ _).mpr ⟨le_refl _, by omega⟩⟩
  · rw [findCrossedCenter] at hc
    by_cases hft : f = t
    · rw [if_pos hft] at hc; exact absurd hc (by simp)
    rw [if_neg hft] at hc
    by_cases hk : jsCeil ((min f t - TILE / 2) / TILE) >
        jsFloor ((max f t - TILE / 2) / TILE)
    · rw [if_pos hk] at hc; exact absurd hc (by simp)
    rw [if_neg hk] at hc
    simp only [Option.some.injEq] at hc
    by_cases htf : t > f
    · -- travelling right/down: min = f, the returned centre is the smallest
      rw [if_pos htf] at hc
      have hcm : min f t ≤ c ∧ c ≤ max f t := by
        rw [← hc]
        exact (center_mem_iff _ _ _).mpr ⟨le_refl _, not_lt.mp hk⟩
      refine ⟨⟨_, hc.symm⟩, hcm.1, hcm.2, fun k hk1 hk2 => ?_⟩
      have hkmem := (center_mem_iff _ _ _).mp ⟨hk1, hk2⟩
      have hmin : min f t = f := min_eq_left htf.le
      have hcast : ((jsCeil ((min f t - TILE / 2) / TILE)) : ℚ) ≤ (k : ℚ) :=
        by exact_mod_cast hkmem.1
      have hle : c ≤ (k : ℚ) * TILE + TILE / 2 := by
        rw [← hc, TILE] at *
        linarith
      have hfc : f ≤ c := hmin ▸ hcm.1
      have hfk : f ≤ (k : ℚ) * TILE + TILE / 2 := hmin ▸ hk1
      rw [abs_of_nonneg (by linarith), abs_of_nonneg (by linarith)]
      linarith
    · -- travelling left/up: max = f, the returned centre is the largest
      rw [if_neg htf] at hc
      have hgt : t < f := lt_of_le_of_ne (not_lt.mp htf) fun h => hft h.symm
      have hcm : min f t ≤ c ∧ c ≤ max f t := by
        rw [← hc]
        exact (center_mem_iff _ _ _).mpr ⟨not_lt.mp hk, le_refl _⟩
      refine ⟨⟨_, hc.symm⟩, hcm.1, hcm.2, fun k hk1 hk2 => ?_⟩
      have hkmem := (center_mem_iff _ _ _).mp ⟨hk1, hk2⟩
      have hmax : max f t = f := max_eq_left hgt.le
      have hcast : (k : ℚ) ≤ ((jsFloor ((max f t - TILE / 2) / TILE)) : ℚ) :=
        by exact_mod_cast hkmem.2
      have hle : (k : ℚ) * TILE + TILE / 2 ≤ c := by
        rw [← hc, TILE] at *
        linarith
      have hcf : c ≤ f := hmax ▸ hcm.2
      have hkf : (k : ℚ) * TILE + TILE / 2 ≤ f := hmax ▸ hk2
      rw [abs_of_nonpos (by linarith), abs_of_nonpos (by linarith)]
      linarith

/-- C3 witness: for the move from 25 to 75 the characterization reports the
crossing at centre 30 — it is a tile centre inside [25, 75] and the closest
crossed centre to the start 25 (e.g. not farther than centre 50). -/
theorem c3_findCrossedCenter_witness :
    ((∃ k : ℤ, (30:ℚ) = (k : ℚ) * TILE + TILE / 2) ∧
      min (25:ℚ) 75 ≤ 30 ∧ (30:ℚ) ≤ max (25:ℚ) 75 ∧
      ∀ k : ℤ, min (25:ℚ) 75 ≤ (k : ℚ) * TILE + TILE / 2 →
        (k : ℚ) * TILE + TILE / 2 ≤ max (25:ℚ) 75 →
        |(30:ℚ) - 25| ≤ |(k : ℚ) * TILE + TILE / 2 - 25|) :=
  (c3_findCrossedCenter_characterization 25 75).2.2 30 (by
    have hkL : jsCeil ((min (25:ℚ) 75 - TILE / 2) / TILE) = 1 :=
      jsCeil_eq _ _ (by rw [TILE]; norm_num) (by rw [TILE]; norm_num)
    have hkH : jsFloor ((max (25:ℚ) 75 - TILE / 2) / TILE) = 3 :=
      jsFloor_eq _ _ (by rw [TILE]; norm_num) (by rw [TILE]; norm_num)
    simp only [findCrossedCenter, hkL, hkH]
    rw [if_neg (by norm_num), if_neg (by decide), if_pos (by norm_num)]
    norm_num [TILE])

/-- C7 witness: with the player at (10, 10) and radius 10, the dot at the
player's position is removed and the dot 90 px away survives. -/
theorem c7_eatDots_witness :
    ((⟨100, 10⟩ : Dot) ∈ eatDots dotsFix 10 10 10 ↔ (⟨100, 10⟩ : Dot) ∈
      dotsFix ∧ ((100 : ℚ) - 10) * (100 - 10) + (10 - 10) * (10 - 10) >
      10 * 10) ∧
    (eatDots dotsFix 10 10 10).Sublist dotsFix :=
  ⟨(c7_eatDots_spec dotsFix 10 10 10 (by norm_num)).1 ⟨100, 10⟩,
    (c7_eatDots_spec dotsFix 10 10 10 (by norm_num)).2⟩

end PacSim
